import Mathlib

/-!
A verification development for the saleor-tma-backend repository.

The Go source is shallowly embedded: pure helpers become Lean functions,
the Saleor GraphQL boundary becomes explicit response values handed to the
embedded service functions, and the outbound calls a service function makes
are returned as an explicit trace.  Machine floats that the claims never
compute with (prices, coordinates) are embedded as `Rat`; Go `int`/`int64`
become `Int`.
-/

namespace SaleorTMA

/-- Character class stripped by Go `strings.TrimSpace` restricted to the
Latin-1 range (ASCII whitespace plus U+0085 and U+00A0); the exotic Unicode
space classes are outside every input this development touches. -/
def isGoSpace (c : Char) : Bool :=
  c = ' ' || c = Char.ofNat 9 || c = Char.ofNat 10 || c = Char.ofNat 11 ||
  c = Char.ofNat 12 || c = Char.ofNat 13 || c = Char.ofNat 0x85 || c = Char.ofNat 0xA0

/-- Go `strings.TrimSpace`: drop leading and trailing whitespace. -/
def goTrimSpace (s : String) : String :=
  String.mk (((s.data.dropWhile isGoSpace).reverse.dropWhile isGoSpace).reverse)

/-- Helper for Go `strings.Split(s, ",")`: accumulate the current token
(reversed) and cut at every comma. -/
def splitCommaAux : List Char → List Char → List String
  | [], acc => [String.mk acc.reverse]
  | c :: rest, acc =>
    if c = ',' then String.mk acc.reverse :: splitCommaAux rest []
    else splitCommaAux rest (c :: acc)

/-- Go `strings.Split(s, ",")`. -/
def goSplitComma (s : String) : List String := splitCommaAux s.data []

/-- The comma fallback of `parseTagsFromMetadata` (service.go): split on
commas, trim every token, drop the empty ones. -/
def commaSplitTags (v : String) : List String :=
  ((goSplitComma v).map goTrimSpace).filter (fun p => p ≠ "")

/-- Value of a hex digit, `none` otherwise; models the hex decoding inside
the Go `encoding/json` string unescaper. -/
def hexVal (c : Char) : Option Nat :=
  if '0' ≤ c ∧ c ≤ '9' then some (c.toNat - 48)
  else if 'a' ≤ c ∧ c ≤ 'f' then some (c.toNat - 97 + 10)
  else if 'A' ≤ c ∧ c ≤ 'F' then some (c.toNat - 65 + 10)
  else none

/-- JSON whitespace (space, tab, newline, carriage return). -/
def isJsonWs (c : Char) : Bool :=
  c = ' ' || c = Char.ofNat 9 || c = Char.ofNat 10 || c = Char.ofNat 13

/-- Skip JSON whitespace. -/
def skipWs (l : List Char) : List Char := l.dropWhile isJsonWs

/-- Model of the Go `encoding/json` string scanner, applied after the opening
quote: returns the decoded characters and the input left after the closing
quote.  Escapes are decoded as encoding/json does, including surrogate
pairs; an unpaired surrogate half becomes U+FFFD (Go is lenient there);
an unescaped control character or an unknown escape is an error (`none`).
Recursion is bounded by an explicit fuel, always called with the length of
the remaining input plus one. -/
def jsonStringBody : Nat → List Char → Option (List Char × List Char)
  | 0, _ => none
  | _ + 1, [] => none
  | fuel + 1, c :: rest =>
    if c = '"' then some ([], rest)
    else if c = '\\' then
      match rest with
      | [] => none
      | e :: rest2 =>
        let simple : Option Char :=
          if e = '"' then some '"'
          else if e = '\\' then some '\\'
          else if e = '/' then some '/'
          else if e = 'b' then some (Char.ofNat 8)
          else if e = 'f' then some (Char.ofNat 12)
          else if e = 'n' then some (Char.ofNat 10)
          else if e = 'r' then some (Char.ofNat 13)
          else if e = 't' then some (Char.ofNat 9)
          else none
        match simple with
        | some d => (jsonStringBody fuel rest2).map (fun pr => (d :: pr.1, pr.2))
        | none =>
          if e = 'u' then
            match rest2 with
            | a :: b :: c2 :: d2 :: rest3 =>
              match hexVal a, hexVal b, hexVal c2, hexVal d2 with
              | some ha, some hb, some hc, some hd =>
                let n := ((ha * 16 + hb) * 16 + hc) * 16 + hd
                if 0xD800 ≤ n ∧ n ≤ 0xDBFF then
                  match rest3 with
                  | '\\' :: 'u' :: a2 :: b2 :: c3 :: d3 :: rest4 =>
                    match hexVal a2, hexVal b2, hexVal c3, hexVal d3 with
                    | some ha2, some hb2, some hc2, some hd2 =>
                      let m := ((ha2 * 16 + hb2) * 16 + hc2) * 16 + hd2
                      if 0xDC00 ≤ m ∧ m ≤ 0xDFFF then
                        let cp := 0x10000 + (n - 0xD800) * 0x400 + (m - 0xDC00)
                        (jsonStringBody fuel rest4).map (fun pr => (Char.ofNat cp :: pr.1, pr.2))
                      else
                        (jsonStringBody fuel rest3).map (fun pr => (Char.ofNat 0xFFFD :: pr.1, pr.2))
                    | _, _, _, _ => none
                  | _ =>
                    (jsonStringBody fuel rest3).map (fun pr => (Char.ofNat 0xFFFD :: pr.1, pr.2))
                else if 0xDC00 ≤ n ∧ n ≤ 0xDFFF then
                  (jsonStringBody fuel rest3).map (fun pr => (Char.ofNat 0xFFFD :: pr.1, pr.2))
                else
                  (jsonStringBody fuel rest3).map (fun pr => (Char.ofNat n :: pr.1, pr.2))
              | _, _, _, _ => none
            | _ => none
          else none
    else if c.toNat < 32 then none
    else (jsonStringBody fuel rest).map (fun pr => (c :: pr.1, pr.2))

/-- Parse one JSON string token (with its opening quote). -/
def jsonStringTok (l : List Char) : Option (String × List Char) :=
  match l with
  | '"' :: rest => (jsonStringBody (rest.length + 1) rest).map (fun pr => (String.mk pr.1, pr.2))
  | _ => none

/-- Parse the comma-separated elements of a JSON array of strings, positioned
just after the opening bracket (and known not to be immediately `]`).
Elements must be JSON strings or `null` (which Go unmarshals into a string
slot as the zero value ""). -/
def jsonArrayElems : Nat → List Char → Option (List String × List Char)
  | 0, _ => none
  | fuel + 1, l =>
    let l1 := skipWs l
    let elem : Option (String × List Char) :=
      match l1 with
      | 'n' :: 'u' :: 'l' :: 'l' :: r => some ("", r)
      | _ => jsonStringTok l1
    match elem with
    | none => none
    | some (s, r) =>
      match skipWs r with
      | ']' :: r2 => some ([s], r2)
      | ',' :: r2 =>
        match jsonArrayElems fuel r2 with
        | some (ss, r3) => some (s :: ss, r3)
        | none => none
      | _ => none

/-- Model of Go `json.Unmarshal([]byte(v), &arr)` for `arr : []string`:
parse exactly one JSON array of strings (or nulls) with nothing but
whitespace after it. -/
def jsonStringArray (s : String) : Option (List String) :=
  match skipWs s.data with
  | '[' :: r =>
    match skipWs r with
    | ']' :: r2 => if skipWs r2 = [] then some [] else none
    | r1 =>
      match jsonArrayElems (r1.length + 1) r1 with
      | some (ss, rest) => if skipWs rest = [] then some ss else none
      | none => none
  | _ => none

/-- Go `strings.HasPrefix(v, "[")`: the first character is `[`. -/
def startsWithBracket (s : String) : Bool :=
  match s.data with
  | '[' :: _ => true
  | _ => false

/-- One Saleor metadata key-value pair (`saleorMeta`). -/
structure SaleorMeta where
  key : String
  value : String
deriving DecidableEq

/-- Embedding of `parseTagsFromMetadata` (service.go): find the first
`tma_tags` entry; empty value gives no tags; a trimmed value starting with
`[` is tried as a JSON string array first; on failure or otherwise the
value is comma-split with tokens trimmed and empties dropped. -/
def parseTagsFromMetadata : List SaleorMeta → List String
  | [] => []
  | m :: rest =>
    if m.key ≠ "tma_tags" then parseTagsFromMetadata rest
    else
      let v := goTrimSpace m.value
      if v = "" then []
      else
        match (if startsWithBracket v then jsonStringArray v else none) with
        | some arr => arr
        | none => commaSplitTags v

/-- A Saleor image node (`saleorImage`): `backgroundImage`/`thumbnail`. -/
structure SaleorImage where
  url : String
deriving DecidableEq

/-- The `gross` money node of a variant's pricing. -/
structure SaleorGross where
  amount : Rat
  currency : String
deriving DecidableEq

/-- The `price` node of a variant's pricing. -/
structure SaleorPrice where
  gross : SaleorGross
deriving DecidableEq

/-- The optional `pricing` node of a variant (`saleorVariant.Pricing`). -/
structure SaleorPricing where
  price : Option SaleorPrice
deriving DecidableEq

/-- One Saleor product variant (`saleorVariant`). -/
structure SaleorVariant where
  id : String
  pricing : Option SaleorPricing
deriving DecidableEq

/-- One Saleor product node of the dishes query (`saleorProductNode`). -/
structure SaleorProductNode where
  id : String
  name : String
  description : String
  thumbnail : Option SaleorImage
  variants : List SaleorVariant
deriving DecidableEq

/-- Domain money value. -/
structure Money where
  amount : Rat
  currency : String
deriving DecidableEq

/-- Domain dish record. -/
structure Dish where
  id : String
  productID : String
  restaurantID : String
  categoryID : String
  name : String
  description : String
  imageURL : String
  price : Money
deriving DecidableEq

/-- The product-mapping loop of `ListDishes` (client.go lines 496-530):
skip products without variants, take the first variant, default the price
to zero amount and empty currency when pricing data is absent. -/
def dishesFromProducts (restaurantID categoryID : String) :
    List SaleorProductNode → List Dish
  | [] => []
  | n :: rest =>
    match n.variants with
    | [] => dishesFromProducts restaurantID categoryID rest
    | v :: _ =>
      let pc : Rat × String :=
        match v.pricing with
        | some pr =>
          match pr.price with
          | some p => (p.gross.amount, p.gross.currency)
          | none => (0, "")
        | none => (0, "")
      let img : String :=
        match n.thumbnail with
        | some t => t.url
        | none => ""
      { id := v.id
        productID := n.id
        restaurantID := restaurantID
        categoryID := categoryID
        name := n.name
        description := n.description
        imageURL := img
        price := { amount := pc.1, currency := pc.2 } } ::
        dishesFromProducts restaurantID categoryID rest

/-- Dish produced by one product according to the specification's words:
zero purchasable variants means no dish; otherwise exactly one dish built
from the first variant, the variant id as the dish id, and a price that
defaults to zero amount / empty currency when pricing data is absent. -/
def dishOfProductSpec (restaurantID categoryID : String)
    (n : SaleorProductNode) : Option Dish :=
  n.variants.head?.map (fun v =>
    { id := v.id
      productID := n.id
      restaurantID := restaurantID
      categoryID := categoryID
      name := n.name
      description := n.description
      imageURL :=
        match n.thumbnail with
        | some t => t.url
        | none => ""
      price :=
        match v.pricing with
        | some pr =>
          match pr.price with
          | some p => { amount := p.gross.amount, currency := p.gross.currency }
          | none => { amount := 0, currency := "" }
        | none => { amount := 0, currency := "" } })

/-- Embedding of `categoryIsChildOf` (client.go lines 533-558) over the
response of the CategoryParent query: the outer `Option` is the category
node itself (`nil` when the category was not found), the inner one its
parent reference. -/
def categoryIsChildOf (parentResp : Except String (Option (Option String)))
    (expectedParentID : String) : Except String Bool :=
  match parentResp with
  | .error e => .error e
  | .ok none => .ok false
  | .ok (some none) => .ok false
  | .ok (some (some pid)) => .ok (pid = expectedParentID)

/-- The two Saleor responses `ListDishes` consumes: the CategoryParent query
for the requested category, and the CategoryDishes products query. -/
structure DishesBackend where
  parentResp : Except String (Option (Option String))
  productsResp : Except String (List SaleorProductNode)

/-- Embedding of `ListDishes` (client.go lines 447-531): reject when the
category's direct parent is not the claimed restaurant, then map products
to dishes. -/
def ListDishes (b : DishesBackend) (restaurantID categoryID : String) :
    Except String (List Dish) :=
  match categoryIsChildOf b.parentResp restaurantID with
  | .error e => .error e
  | .ok false => .error "category does not belong to restaurant"
  | .ok true =>
    match b.productsResp with
    | .error e => .error e
    | .ok nodes => .ok (dishesFromProducts restaurantID categoryID nodes)

/-- One Saleor restaurant node (`saleorRestaurantNode`). -/
structure SaleorRestaurantNode where
  id : String
  name : String
  description : String
  backgroundImage : Option SaleorImage
  metadata : List SaleorMeta
deriving DecidableEq

/-- Domain restaurant record. -/
structure Restaurant where
  id : String
  name : String
  description : String
  imageURL : String
  tags : List String
deriving DecidableEq

/-- Embedding of `mapRestaurants` (client.go lines 336-352). -/
def mapRestaurants : List SaleorRestaurantNode → List Restaurant
  | [] => []
  | n :: rest =>
    { id := n.id
      name := n.name
      description := n.description
      imageURL :=
        match n.backgroundImage with
        | some img => img.url
        | none => ""
      tags := parseTagsFromMetadata n.metadata } :: mapRestaurants rest

/-- The Saleor responses `ListRestaurants` may consume: the children of a
given root category (`none` when that category is missing), and the
top-level categories for an optional search filter. -/
structure RestaurantsBackend where
  rootChildrenResp : String → Except String (Option (List SaleorRestaurantNode))
  topLevelResp : Option String → Except String (List SaleorRestaurantNode)

/-- Embedding of `listRestaurantsFromRoot` (client.go lines 248-288). -/
def listRestaurantsFromRoot (b : RestaurantsBackend) (rootID : String) :
    Except String (List Restaurant) :=
  match b.rootChildrenResp rootID with
  | .error e => .error e
  | .ok none => .error "root category not found"
  | .ok (some nodes) => .ok (mapRestaurants nodes)

/-- Embedding of `listRestaurantsTopLevel` (client.go lines 290-333): the
search filter is only attached when the trimmed search text is non-empty. -/
def listRestaurantsTopLevel (b : RestaurantsBackend) (search : String) :
    Except String (List Restaurant) :=
  let filter : Option String :=
    if goTrimSpace search ≠ "" then some search else none
  match b.topLevelResp filter with
  | .error e => .error e
  | .ok nodes => .ok (mapRestaurants nodes)

/-- The configuration of the TMA service (`Service` struct). -/
structure Service where
  channelID : String
  channelSlug : String
  restaurantRootCategoryID : String

/-- Embedding of `ListRestaurants` (client.go lines 241-246): a configured
root category selects the from-root listing, otherwise the top-level one. -/
def ListRestaurants (s : Service) (b : RestaurantsBackend) (search : String) :
    Except String (List Restaurant) :=
  if s.restaurantRootCategoryID ≠ "" then
    listRestaurantsFromRoot b s.restaurantRootCategoryID
  else listRestaurantsTopLevel b search

/-- One cart item (`CartItem`); Go `int` quantity becomes `Int`. -/
structure CartItem where
  dishID : String
  quantity : Int
deriving DecidableEq

/-- Delivery coordinates (`DeliveryLocation`); float64 embedded as `Rat`. -/
structure DeliveryLocation where
  lat : Rat
  lng : Rat
deriving DecidableEq

/-- Input of `PlaceOrder` (`PlaceOrderInput`); the Go `*DeliveryLocation`
pointer becomes an `Option`. -/
structure PlaceOrderInput where
  restaurantID : String
  items : List CartItem
  deliveryLocation : Option DeliveryLocation
  googleMapsURL : String
  comment : String
deriving DecidableEq

/-- Result of `PlaceOrder` (`PlaceOrderResult`). -/
structure PlaceOrderResult where
  orderID : String
  status : String
deriving DecidableEq

/-- Embedding of `validatePlaceOrderInput` (client.go lines 582-595):
`some` is the error message, `none` means the input passed. -/
def validatePlaceOrderInput (input : PlaceOrderInput) : Option String :=
  if input.restaurantID = "" then some "restaurantId is required"
  else if input.items.isEmpty then some "items must not be empty"
  else
    let hasCoords : Bool := input.deliveryLocation.isSome
    let hasMapsURL : Bool := goTrimSpace input.googleMapsURL != ""
    if hasCoords = hasMapsURL then
      some "provide exactly one of deliveryLocation or googleMapsUrl"
    else none

/-- Models Go `fmt.Sprintf("%f", x)` on the rational embedding of the
float64 coordinate.  No claim inspects the rendered digits, only which
metadata keys are present, so the decimal rendering is abstracted as
`toString`. -/
def formatFloat (x : Rat) : String := toString x

/-- One metadata key-value pair sent with the draft order. -/
structure OrderKV where
  key : String
  value : String
deriving DecidableEq

/-- Embedding of `buildOrderMetadata` (client.go lines 719-733): always the
user id and the restaurant id; then either the lat/lng pair or the
Google-Maps link, depending on which delivery variant is present. -/
def buildOrderMetadata (telegramUserID : Int) (input : PlaceOrderInput) :
    List OrderKV :=
  let meta : List OrderKV :=
    [{ key := "tma.telegramUserId", value := toString telegramUserID },
     { key := "tma.restaurantId", value := input.restaurantID }]
  match input.deliveryLocation with
  | some loc =>
    meta ++ [{ key := "tma.delivery.lat", value := formatFloat loc.lat },
             { key := "tma.delivery.lng", value := formatFloat loc.lng }]
  | none =>
    meta ++ [{ key := "tma.delivery.googleMapsUrl", value := input.googleMapsURL }]

/-- The variables of the draftOrderCreate call (`createDraftOrder`,
client.go lines 622-629).  The synthetic customer email is
`tg-<userId>@tma.local`. -/
structure DraftOrderVars where
  channelId : String
  userEmail : String
  customerNote : String
  metadata : List OrderKV
deriving DecidableEq

/-- The draftOrderCreate variables assembled by `createDraftOrder`. -/
def draftOrderVars (channelID : String) (telegramUserID : Int)
    (input : PlaceOrderInput) : DraftOrderVars :=
  { channelId := channelID
    userEmail := "tg-" ++ toString telegramUserID ++ "@tma.local"
    customerNote := input.comment
    metadata := buildOrderMetadata telegramUserID input }

/-- One order line of the orderLinesCreate call. -/
structure OrderLine where
  variantId : String
  quantity : Int
deriving DecidableEq

/-- An outbound Saleor mutation issued by `PlaceOrder`, recorded in the
order the code issues them. -/
inductive SaleorCall where
  | createDraft : DraftOrderVars → SaleorCall
  | addLines : String → List OrderLine → SaleorCall
  | completeDraft : String → SaleorCall
deriving DecidableEq

/-- The `order` object of a Saleor mutation response. -/
structure OrderObj where
  id : String
  status : String
deriving DecidableEq

/-- A Saleor mutation response: an optional order object plus the reported
error messages (only the `message` field of an error is ever read). -/
structure MutationResp where
  order : Option OrderObj
  errors : List String
deriving DecidableEq

/-- The three Saleor responses one `PlaceOrder` invocation can consume; a
`.error` models a transport failure of `Client.Do`. -/
structure SaleorGateway where
  createResp : Except String MutationResp
  linesResp : Except String MutationResp
  completeResp : Except String MutationResp

/-- The line-building loop at the top of `addOrderLines` (client.go lines
651-660): quantities are checked strictly before the mutation is issued,
and the first non-positive quantity aborts. -/
def buildLines : List CartItem → Except String (List OrderLine)
  | [] => .ok []
  | it :: rest =>
    if it.quantity ≤ 0 then .error "item quantity must be >= 1"
    else
      match buildLines rest with
      | .error e => .error e
      | .ok ls => .ok ({ variantId := it.dishID, quantity := it.quantity } :: ls)

/-- Embedding of `PlaceOrder` (client.go lines 564-716): validate, create
the draft order, add the lines, complete.  The first component is the
returned result, the second the trace of Saleor mutations issued. -/
def PlaceOrder (g : SaleorGateway) (channelID : String) (telegramUserID : Int)
    (input : PlaceOrderInput) : Except String PlaceOrderResult × List SaleorCall :=
  match validatePlaceOrderInput input with
  | some e => (.error e, [])
  | none =>
    let trace1 := [SaleorCall.createDraft (draftOrderVars channelID telegramUserID input)]
    match g.createResp with
    | .error e => (.error e, trace1)
    | .ok resp =>
      match resp.order with
      | none =>
        match resp.errors with
        | e :: _ => (.error ("saleor draftOrderCreate: " ++ e), trace1)
        | [] => (.error "saleor draftOrderCreate: no order returned", trace1)
      | some o =>
        match buildLines input.items with
        | .error e => (.error e, trace1)
        | .ok lines =>
          let trace2 := trace1 ++ [SaleorCall.addLines o.id lines]
          match g.linesResp with
          | .error e => (.error e, trace2)
          | .ok lresp =>
            match lresp.order, lresp.errors with
            | none, e :: _ => (.error ("saleor orderLinesCreate: " ++ e), trace2)
            | _, _ =>
              let trace3 := trace2 ++ [SaleorCall.completeDraft o.id]
              match g.completeResp with
              | .error e => (.error e, trace3)
              | .ok cresp =>
                match cresp.order with
                | none =>
                  match cresp.errors with
                  | e :: _ => (.error ("saleor draftOrderComplete: " ++ e), trace3)
                  | [] => (.error "saleor draftOrderComplete: no order returned", trace3)
                | some co => (.ok { orderID := co.id, status := co.status }, trace3)

/-- The parsed init-data payload: an association list of fields as produced
by `url.ParseQuery` (duplicate keys possible; `Get` reads the first value). -/
abbrev Bag := List (String × String)

/-- Go `url.Values.Get`: first value for the key, `""` when absent. -/
def bagGet : Bag → String → String
  | [], _ => ""
  | (k, v) :: rest, key => if k = key then v else bagGet rest key

/-- The keys of a field bag, in order, duplicates kept. -/
def bagKeys (b : Bag) : List String := b.map Prod.fst

/-- The string order used by Go `sort.Strings`: lexicographic on the
character sequence (byte order and code-point order agree on UTF-8). -/
def strLe (a b : String) : Prop := a.data ≤ b.data

instance : DecidableRel strLe :=
  fun a b => inferInstanceAs (Decidable (a.data ≤ b.data))

instance : IsTotal String strLe := ⟨fun a b => le_total a.data b.data⟩

instance : IsTrans String strLe := ⟨fun _ _ _ h h2 => le_trans h h2⟩

instance : IsAntisymm String strLe :=
  ⟨fun a b h h2 => by
    cases a
    cases b
    exact congrArg String.mk (le_antisymm h h2)⟩

/-- The canonical data-check string of `VerifyInitData` (initdata.go lines
46-55): one `key=value` pair per distinct key other than `hash`, first
value per key, pairs sorted lexicographically, joined with newlines. -/
def dataCheckString (bag : Bag) : String :=
  let pairs := ((bagKeys bag).dedup.filter (fun k => k ≠ "hash")).map
    (fun k => k ++ "=" ++ bagGet bag k)
  String.intercalate "\n" (pairs.insertionSort strLe)

/-- The Telegram user embedded in the `user` field (`telegram.User`). -/
structure TgUser where
  id : Int
  firstName : String
  lastName : String
  username : String
  language : String
deriving DecidableEq

/-- Successful verification result (`telegram.AuthResult`); the auth date is
kept as Unix seconds. -/
structure AuthResult where
  user : TgUser
  authDate : Int
deriving DecidableEq

/-- The distinct failure exits of `VerifyInitData`; every one of them wraps
`ErrInvalidInitData` in the Go code. -/
inductive VerifyError where
  | missingHash
  | signatureMismatch
  | missingAuthDate
  | invalidAuthDate
  | expired
  | missingUser
  | invalidUserJson
  | missingUserID
deriving DecidableEq

/-- Digit-accumulating loop of Go `strconv.ParseInt` (base 10). -/
def decDigitsAux : List Char → Nat → Option Nat
  | [], acc => some acc
  | c :: rest, acc =>
    if c.isDigit then decDigitsAux rest (acc * 10 + (c.toNat - 48))
    else none

/-- Model of Go `strconv.ParseInt(s, 10, 64)`: optional sign, at least one
digit, digits only, and the value must fit in int64 (Go reports overflow
as an error). -/
def goParseInt64 (s : String) : Option Int :=
  let signed : Bool × List Char :=
    match s.data with
    | '+' :: rest => (false, rest)
    | '-' :: rest => (true, rest)
    | l => (false, l)
  match signed.2 with
  | [] => none
  | ds =>
    match decDigitsAux ds 0 with
    | none => none
    | some n =>
      let v : Int := if signed.1 then -(n : Int) else (n : Int)
      if v < -(2 ^ 63) ∨ 2 ^ 63 - 1 < v then none else some v

/-- Go `strings.ToLower` restricted to ASCII case mapping; the compared
strings are hex digests, so this matches the Go behaviour on every input
the code feeds it. -/
def goToLower (s : String) : String := String.mk (s.data.map Char.toLower)

/-- Embedding of `VerifyInitData` (initdata.go lines 33-96) over an already
parsed field bag.  `macHex secret msg` abstracts the composite
`hex(HMAC-SHA256(SHA-256(secret), msg))` digest, and `unmarshalUser`
abstracts `json.Unmarshal` into `telegram.User` (`none` is a decode
error); both are uninterpreted function parameters, so every theorem below
holds for the real instantiations.  Time is in Unix seconds: `now - sec`
is Go `time.Since(authDate)` and `maxAge` the configured duration. -/
def VerifyInitData (macHex : String → String → String)
    (unmarshalUser : String → Option TgUser)
    (bag : Bag) (botToken : String) (maxAge now : Int) :
    Except VerifyError AuthResult :=
  let hash := bagGet bag "hash"
  if hash = "" then .error .missingHash
  else
    let expected := macHex botToken (dataCheckString bag)
    if goToLower hash ≠ goToLower expected then .error .signatureMismatch
    else
      let authDateRaw := bagGet bag "auth_date"
      if authDateRaw = "" then .error .missingAuthDate
      else
        match goParseInt64 authDateRaw with
        | none => .error .invalidAuthDate
        | some sec =>
          if 0 < maxAge ∧ maxAge < now - sec then .error .expired
          else
            let userRaw := bagGet bag "user"
            if userRaw = "" then .error .missingUser
            else
              match unmarshalUser userRaw with
              | none => .error .invalidUserJson
              | some u =>
                if u.id = 0 then .error .missingUserID
                else .ok { user := u, authDate := sec }

/-- Outcome of the HTTP middleware: a rejection with status and body, or
the request proceeding with the verified identity attached. -/
inductive MiddlewareOutcome where
  | reject : Nat → String → MiddlewareOutcome
  | proceed : AuthResult → MiddlewareOutcome
deriving DecidableEq

/-- Embedding of `TelegramAuthMiddleware.Wrap` (telegram_middleware.go lines
15-32): a missing header is rejected with its own message, and every
verification failure is rejected with the single opaque message
`invalid telegram init data`. -/
def Wrap (macHex : String → String → String)
    (unmarshalUser : String → Option TgUser)
    (initData : Option Bag) (botToken : String) (maxAge now : Int) :
    MiddlewareOutcome :=
  match initData with
  | none => .reject 401 "missing X-Telegram-Init-Data"
  | some bag =>
    match VerifyInitData macHex unmarshalUser bag botToken maxAge now with
    | .error _ => .reject 401 "invalid telegram init data"
    | .ok a => .proceed a

/-- Concrete MAC fixture: a constant non-empty digest. -/
def macW : String → String → String := fun _ _ => "aa"

/-- Concrete embedded user fixture. -/
def userW : TgUser := { id := 7, firstName := "", lastName := "", username := "", language := "" }

/-- Concrete user-JSON decoder fixture. -/
def unmarshalW : String → Option TgUser := fun s => if s = "u1" then some userW else none

/-- A field bag signed by `macW`, holding a valid auth date and user. -/
def bagW : Bag := [("auth_date", "100"), ("user", "u1"), ("hash", "aa")]

/-- A signed bag with only a hash and an auth date, used for expiry checks. -/
def bagExpW : Bag := [("hash", "aa"), ("auth_date", "10")]

/-- A bag whose hash does not match `macW`. -/
def bagSigW : Bag := [("hash", "zz")]

/-- A gateway on which every step succeeds. -/
def gwOkW : SaleorGateway :=
  { createResp := .ok { order := some { id := "o1", status := "DRAFT" }, errors := [] }
    linesResp := .ok { order := some { id := "o1", status := "X" }, errors := [] }
    completeResp := .ok { order := some { id := "o2", status := "UNFULFILLED" }, errors := [] } }

/-- A gateway whose line submission reports an error alongside an order
object. -/
def gwLinesErrOrderW : SaleorGateway :=
  { createResp := .ok { order := some { id := "o1", status := "DRAFT" }, errors := [] }
    linesResp := .ok { order := some { id := "o1", status := "X" }, errors := ["boom"] }
    completeResp := .ok { order := some { id := "o2", status := "S" }, errors := [] } }

/-- A gateway whose line submission reports an error and no order object. -/
def gwLinesErrNoOrderW : SaleorGateway :=
  { createResp := .ok { order := some { id := "o1", status := "DRAFT" }, errors := [] }
    linesResp := .ok { order := none, errors := ["boom"] }
    completeResp := .ok { order := some { id := "o2", status := "S" }, errors := [] } }

/-- A fully valid order input using the coordinates delivery variant. -/
def inputCoordsW : PlaceOrderInput :=
  { restaurantID := "r1", items := [{ dishID := "d1", quantity := 2 }]
    deliveryLocation := some { lat := 1, lng := 2 }, googleMapsURL := "", comment := "hi" }

/-- An order input with an empty items list. -/
def inputEmptyItemsW : PlaceOrderInput :=
  { restaurantID := "r1", items := []
    deliveryLocation := some { lat := 1, lng := 2 }, googleMapsURL := "", comment := "" }

/-- An otherwise valid order input with a zero quantity. -/
def inputQty0W : PlaceOrderInput :=
  { restaurantID := "r1", items := [{ dishID := "d1", quantity := 0 }]
    deliveryLocation := some { lat := 1, lng := 2 }, googleMapsURL := "", comment := "" }

/-- A dishes backend whose category-parent response names another parent. -/
def dbW : DishesBackend :=
  { parentResp := .ok (some (some "other")), productsResp := .ok [] }

/-- A service configuration with a restaurant root category configured. -/
def svcW : Service := { channelID := "c", channelSlug := "sl", restaurantRootCategoryID := "root" }

/-- A restaurants backend fixture. -/
def rbW : RestaurantsBackend :=
  { rootChildrenResp := fun _ => .ok (some []), topLevelResp := fun _ => .ok [] }

/-- C6: the tag parser maps `"a,b,c"` to `["a","b","c"]`, the value
`["a","b"]` (as JSON) to `["a","b"]`, and an absent or empty `tma_tags`
entry to the empty list without error; in general a trimmed value starting
with `[` is tried as a JSON string array first, and otherwise (or on JSON
failure) the value is comma-split with tokens trimmed and empty tokens
dropped. -/
theorem parseTags_examples_and_rule :
    parseTagsFromMetadata [{ key := "tma_tags", value := "a,b,c" }] = ["a", "b", "c"]
    ∧ parseTagsFromMetadata [{ key := "tma_tags", value := "[\"a\",\"b\"]" }] = ["a", "b"]
    ∧ parseTagsFromMetadata [] = []
    ∧ parseTagsFromMetadata [{ key := "other", value := "x" }] = []
    ∧ parseTagsFromMetadata [{ key := "tma_tags", value := "" }] = []
    ∧ ∀ v : String,
        parseTagsFromMetadata [{ key := "tma_tags", value := v }]
          = (if goTrimSpace v = "" then []
             else
               match (if startsWithBracket (goTrimSpace v)
                      then jsonStringArray (goTrimSpace v) else none) with
               | some arr => arr
               | none => commaSplitTags (goTrimSpace v)) := by
  refine ⟨by decide, by decide, rfl, by decide, by decide, ?_⟩
  intro v
  rfl

/-- C7: in the dish-mapping loop of `ListDishes`, a product with zero
variants produces no dish and no error, a product with at least one
variant produces exactly one dish built from its first variant (the
variant id as the dish id), and absent pricing data defaults to a zero
amount and empty currency instead of failing the listing. -/
theorem dishes_first_variant (restaurantID categoryID : String)
    (nodes : List SaleorProductNode) :
    dishesFromProducts restaurantID categoryID nodes
      = nodes.filterMap (dishOfProductSpec restaurantID categoryID)
    ∧ (dishesFromProducts restaurantID categoryID nodes).length
      = (nodes.filter (fun n => !n.variants.isEmpty)).length := by
  constructor
  · induction nodes with
    | nil => rfl
    | cons n rest ih =>
      cases hv : n.variants with
      | nil => simp [dishesFromProducts, dishOfProductSpec, hv, ih]
      | cons v vs =>
        rcases hp : v.pricing with _ | pr
        · rcases ht : n.thumbnail with _ | t <;>
            simp [dishesFromProducts, dishOfProductSpec, hv, hp, ht, ih]
        · rcases hpp : pr.price with _ | p <;>
            rcases ht : n.thumbnail with _ | t <;>
              simp [dishesFromProducts, dishOfProductSpec, hv, hp, hpp, ht, ih]
  · induction nodes with
    | nil => rfl
    | cons n rest ih =>
      cases hv : n.variants with
      | nil => simp [dishesFromProducts, hv, ih]
      | cons v vs => simp [dishesFromProducts, hv, ih]

/-- C3: whenever the category-parent lookup reports that the category is
missing, has no parent, or has a parent different from the claimed
restaurant, `ListDishes` fails with the dedicated hierarchy error and
returns no dish data. -/
theorem listDishes_hierarchy_reject (b : DishesBackend) (r c : String)
    (po : Option (Option String)) (hp : b.parentResp = .ok po)
    (hcase : po = none ∨ po = some none ∨ ∃ p, po = some (some p) ∧ p ≠ r) :
    ListDishes b r c = .error "category does not belong to restaurant" := by
  rcases hcase with h | h | ⟨p, h, hne⟩ <;> subst h
  · simp [ListDishes, categoryIsChildOf, hp]
  · simp [ListDishes, categoryIsChildOf, hp]
  · simp [ListDishes, categoryIsChildOf, hp, hne]

/-- Witness for C3 at a concrete backend whose parent is a different id. -/
theorem listDishes_hierarchy_reject_witness :
    dbW.parentResp = .ok (some (some "other"))
    ∧ ListDishes dbW "r1" "c1" = .error "category does not belong to restaurant" :=
  ⟨rfl, listDishes_hierarchy_reject dbW "r1" "c1" (some (some "other")) rfl
    (Or.inr (Or.inr ⟨"other", rfl, by decide⟩))⟩

/-- C10: with a restaurant root category configured, `ListRestaurants`
never reads its search argument: any two searches against the same
catalog responses give the same result. -/
theorem listRestaurants_ignores_search (s : Service) (b : RestaurantsBackend)
    (h : s.restaurantRootCategoryID ≠ "") (s1 s2 : String) :
    ListRestaurants s b s1 = ListRestaurants s b s2 := by
  simp [ListRestaurants, h]

/-- Witness for C10 at a concrete configured service and backend. -/
theorem listRestaurants_ignores_search_witness :
    svcW.restaurantRootCategoryID ≠ ""
    ∧ ListRestaurants svcW rbW "pizza" = ListRestaurants svcW rbW "sushi" :=
  ⟨by decide, listRestaurants_ignores_search svcW rbW (by decide) "pizza" "sushi"⟩

/-- Helper: a cart containing an item with quantity below one always makes
the line-building loop fail. -/
theorem buildLines_err (items : List CartItem)
    (h : ∃ it ∈ items, it.quantity < 1) : ∃ e, buildLines items = .error e := by
  induction items with
  | nil => simp at h
  | cons it rest ih =>
    by_cases hq : it.quantity ≤ 0
    · exact ⟨"item quantity must be >= 1", by simp [buildLines, hq]⟩
    · obtain ⟨bad, hmem, hbad⟩ := h
      rcases List.mem_cons.1 hmem with rfl | hmem2
      · omega
      · obtain ⟨e, he⟩ := ih ⟨bad, hmem2, hbad⟩
        exact ⟨e, by simp [buildLines, hq, he]⟩

/-- Helper: pre-flight validation rejects an empty items list and the
both-or-neither delivery configurations. -/
theorem validate_some (input : PlaceOrderInput)
    (hcase : input.items = []
      ∨ (input.deliveryLocation.isSome ↔ goTrimSpace input.googleMapsURL ≠ "")) :
    ∃ e, validatePlaceOrderInput input = some e := by
  by_cases hr : input.restaurantID = ""
  · exact ⟨"restaurantId is required", by simp [validatePlaceOrderInput, hr]⟩
  · rcases hcase with hitems | hiff
    · exact ⟨"items must not be empty", by simp [validatePlaceOrderInput, hr, hitems]⟩
    · by_cases hi : input.items.isEmpty
      · exact ⟨"items must not be empty", by simp [validatePlaceOrderInput, hr, hi]⟩
      · refine ⟨"provide exactly one of deliveryLocation or googleMapsUrl", ?_⟩
        have hb : input.deliveryLocation.isSome = (goTrimSpace input.googleMapsURL != "") := by
          rcases hc : input.deliveryLocation.isSome with _ | _ <;>
            rcases hm : (goTrimSpace input.googleMapsURL != "") with _ | _ <;>
              simp_all [bne_iff_ne]
        simp [validatePlaceOrderInput, hr, hi, hb]

/-- C1 (amended): an empty items list or a both-present / neither-present
delivery target is rejected by the pre-flight check with no external call;
an item quantity below one also always fails the order, but only inside
the line-building step, after the draft-creation call may already have
been issued and before any line-submission or completion call. -/
theorem placeOrder_preflight (g : SaleorGateway) (chan : String) (u : Int)
    (input : PlaceOrderInput) :
    ((input.items = []
        ∨ (input.deliveryLocation.isSome ↔ goTrimSpace input.googleMapsURL ≠ "")) →
      ∃ e, PlaceOrder g chan u input = (.error e, []))
    ∧ (validatePlaceOrderInput input = none →
       (∃ it ∈ input.items, it.quantity < 1) →
       (∃ e, (PlaceOrder g chan u input).1 = .error e)
       ∧ ∀ call ∈ (PlaceOrder g chan u input).2, ∃ dv, call = .createDraft dv) := by
  constructor
  · intro hcase
    obtain ⟨e, he⟩ := validate_some input hcase
    exact ⟨e, by simp [PlaceOrder, he]⟩
  · intro hvalid hbad
    obtain ⟨e0, hbl⟩ := buildLines_err input.items hbad
    simp only [PlaceOrder, hvalid]
    repeat' split
    all_goals simp_all

/-- Counterexample to C1 as stated: an otherwise valid input with a zero
quantity does reach the external system — the trace of Saleor calls is not
empty, contradicting "performs no external call". -/
theorem placeOrder_quantity_calls_saleor_cex :
    (∃ it ∈ inputQty0W.items, it.quantity < 1)
    ∧ (PlaceOrder gwOkW "ch" 1 inputQty0W).2 ≠ [] := by
  constructor
  · exact ⟨{ dishID := "d1", quantity := 0 }, by decide, by decide⟩
  · decide

/-- Witness for the amended C1 at concrete inputs: empty items are rejected
with no call, and a zero quantity errors with a trace of draft-creation
calls only. -/
theorem placeOrder_preflight_witness :
    (inputEmptyItemsW.items = []
     ∧ ∃ e, PlaceOrder gwOkW "ch" 1 inputEmptyItemsW = (.error e, []))
    ∧ (validatePlaceOrderInput inputQty0W = none
       ∧ (∃ e, (PlaceOrder gwOkW "ch" 1 inputQty0W).1 = .error e)
       ∧ ∀ call ∈ (PlaceOrder gwOkW "ch" 1 inputQty0W).2, ∃ dv, call = .createDraft dv) :=
  ⟨⟨rfl, (placeOrder_preflight gwOkW "ch" 1 inputEmptyItemsW).1 (Or.inl rfl)⟩,
   ⟨by decide,
    (placeOrder_preflight gwOkW "ch" 1 inputQty0W).2 (by decide)
      ⟨{ dishID := "d1", quantity := 0 }, by decide, by decide⟩⟩⟩

/-- C4: for a valid input, the first (and only) create call carries the
synthetic customer email `tg-<userId>@tma.local`, the free-text comment,
and a metadata bag with the user id and restaurant id plus exactly the
delivery keys of the supplied variant: lat/lng and no maps link for
coordinates, the maps link and no lat/lng otherwise. -/
theorem placeOrder_create_call_contents (g : SaleorGateway) (chan : String)
    (u : Int) (input : PlaceOrderInput)
    (hvalid : validatePlaceOrderInput input = none) :
    (PlaceOrder g chan u input).2.head?
      = some (.createDraft
          { channelId := chan
            userEmail := "tg-" ++ toString u ++ "@tma.local"
            customerNote := input.comment
            metadata := buildOrderMetadata u input })
    ∧ ({ key := "tma.telegramUserId", value := toString u } : OrderKV)
        ∈ buildOrderMetadata u input
    ∧ ({ key := "tma.restaurantId", value := input.restaurantID } : OrderKV)
        ∈ buildOrderMetadata u input
    ∧ (∀ loc, input.deliveryLocation = some loc →
        "tma.delivery.lat" ∈ (buildOrderMetadata u input).map OrderKV.key
        ∧ "tma.delivery.lng" ∈ (buildOrderMetadata u input).map OrderKV.key
        ∧ "tma.delivery.googleMapsUrl" ∉ (buildOrderMetadata u input).map OrderKV.key)
    ∧ (input.deliveryLocation = none →
        "tma.delivery.googleMapsUrl" ∈ (buildOrderMetadata u input).map OrderKV.key
        ∧ "tma.delivery.lat" ∉ (buildOrderMetadata u input).map OrderKV.key
        ∧ "tma.delivery.lng" ∉ (buildOrderMetadata u input).map OrderKV.key) := by
  refine ⟨?_, ?_, ?_, ?_, ?_⟩
  · simp only [PlaceOrder, hvalid]
    repeat' split
    all_goals rfl
  · rcases h : input.deliveryLocation with _ | loc <;> simp [buildOrderMetadata, h]
  · rcases h : input.deliveryLocation with _ | loc <;> simp [buildOrderMetadata, h]
  · intro loc hl
    simp [buildOrderMetadata, hl]
  · intro hl
    simp [buildOrderMetadata, hl]

/-- Witness for C4 at a concrete valid coordinates input. -/
theorem placeOrder_create_call_contents_witness :
    validatePlaceOrderInput inputCoordsW = none
    ∧ (PlaceOrder gwOkW "ch" 5 inputCoordsW).2.head?
        = some (.createDraft
            { channelId := "ch"
              userEmail := "tg-" ++ toString (5 : Int) ++ "@tma.local"
              customerNote := "hi"
              metadata := buildOrderMetadata 5 inputCoordsW }) :=
  ⟨by decide, (placeOrder_create_call_contents gwOkW "ch" 5 inputCoordsW (by decide)).1⟩

/-- C8 (amended): the filling step fails with the first reported error
message exactly when the line-submission response carries at least one
error and no order object; when an order object accompanies the errors the
saga continues to the completion call instead of failing. -/
theorem placeOrder_lines_error_handling (g : SaleorGateway) (chan : String) (u : Int)
    (input : PlaceOrderInput) (cr : MutationResp) (o : OrderObj)
    (lines : List OrderLine) (lresp : MutationResp)
    (hval : validatePlaceOrderInput input = none)
    (hcr : g.createResp = .ok cr) (hor : cr.order = some o)
    (hbl : buildLines input.items = .ok lines)
    (hlr : g.linesResp = .ok lresp) :
    (∀ m ms, lresp.order = none → lresp.errors = m :: ms →
      PlaceOrder g chan u input
        = (.error ("saleor orderLinesCreate: " ++ m),
           [.createDraft (draftOrderVars chan u input), .addLines o.id lines]))
    ∧ (∀ w, lresp.order = some w →
      (PlaceOrder g chan u input).2
        = [.createDraft (draftOrderVars chan u input), .addLines o.id lines,
           .completeDraft o.id]) := by
  constructor
  · intro m ms hlo hle
    simp [PlaceOrder, hval, hcr, hor, hbl, hlr, hlo, hle]
  · intro w hlo
    simp only [PlaceOrder, hval, hcr, hor, hbl, hlr, hlo]
    repeat' split
    all_goals simp_all

/-- Counterexample to C8 as stated: a line-submission response reporting an
error alongside an order object does not fail the saga — the order
completes successfully. -/
theorem placeOrder_lines_error_continues_cex :
    gwLinesErrOrderW.linesResp
      = .ok { order := some { id := "o1", status := "X" }, errors := ["boom"] }
    ∧ (PlaceOrder gwLinesErrOrderW "ch" 1 inputCoordsW).1
      = .ok { orderID := "o2", status := "S" } :=
  ⟨rfl, by rfl⟩

/-- Witness for the amended C8 at a concrete error-and-no-order response. -/
theorem placeOrder_lines_error_handling_witness :
    validatePlaceOrderInput inputCoordsW = none
    ∧ PlaceOrder gwLinesErrNoOrderW "ch" 1 inputCoordsW
        = (.error "saleor orderLinesCreate: boom",
           [.createDraft (draftOrderVars "ch" 1 inputCoordsW),
            .addLines "o1" [{ variantId := "d1", quantity := 2 }]]) :=
  ⟨by decide,
   (placeOrder_lines_error_handling gwLinesErrNoOrderW "ch" 1 inputCoordsW
      { order := some { id := "o1", status := "DRAFT" }, errors := [] }
      { id := "o1", status := "DRAFT" }
      [{ variantId := "d1", quantity := 2 }]
      { order := none, errors := ["boom"] }
      (by decide) rfl rfl rfl rfl).1 "boom" [] rfl rfl⟩

theorem bagGet_eq_of_mem {bag : Bag} {k v : String}
    (hmem : (k, v) ∈ bag) (hnd : (bagKeys bag).Nodup) : bagGet bag k = v := by
  induction bag with
  | nil => cases hmem
  | cons p rest ih =>
    obtain ⟨k0, v0⟩ := p
    simp only [bagKeys, List.map_cons, List.nodup_cons] at hnd
    rcases List.mem_cons.1 hmem with heq | hmem2
    · obtain ⟨rfl, rfl⟩ := Prod.mk.injEq .. ▸ heq
      · simp [bagGet]
    · have hk : k ∈ bagKeys rest := List.mem_map_of_mem Prod.fst hmem2
      have hne : k0 ≠ k := fun h => hnd.1 (h ▸ hk)
      simp only [bagGet, if_neg hne]
      exact ih hmem2 hnd.2

theorem mem_of_mem_bagKeys {bag : Bag} {k : String}
    (hk : k ∈ bagKeys bag) : (k, bagGet bag k) ∈ bag := by
  induction bag with
  | nil => cases hk
  | cons p rest ih =>
    obtain ⟨k0, v0⟩ := p
    by_cases h : k0 = k
    · subst h
      simp [bagGet]
    · simp only [bagKeys, List.map_cons, List.mem_cons] at hk
      rcases hk with rfl | hk2
      · exact absurd rfl h
      · simp only [bagGet, if_neg h]
        exact List.mem_cons_of_mem _ (ih hk2)

theorem bagGet_eq_of_perm {bag bag' : Bag} (h : bag.Perm bag')
    (hnd : (bagKeys bag).Nodup) {k : String} (hk : k ∈ bagKeys bag) :
    bagGet bag' k = bagGet bag k := by
  have hnd' : (bagKeys bag').Nodup := ((h.map Prod.fst).nodup_iff).1 hnd
  exact bagGet_eq_of_mem (h.subset (mem_of_mem_bagKeys hk)) hnd'

theorem dataCheckString_eq_of_perm {bag bag' : Bag} (h : bag.Perm bag')
    (hnd : (bagKeys bag).Nodup) :
    dataCheckString bag' = dataCheckString bag := by
  have hkeys : (bagKeys bag).Perm (bagKeys bag') := h.map Prod.fst
  have hded : ((bagKeys bag).dedup).Perm ((bagKeys bag').dedup) := hkeys.dedup
  have hfil : (((bagKeys bag).dedup).filter (fun k => k ≠ "hash")).Perm
      (((bagKeys bag').dedup).filter (fun k => k ≠ "hash")) := hded.filter _
  have hmapeq :
      (((bagKeys bag').dedup).filter (fun k => k ≠ "hash")).map
        (fun k => k ++ "=" ++ bagGet bag' k)
      = (((bagKeys bag').dedup).filter (fun k => k ≠ "hash")).map
        (fun k => k ++ "=" ++ bagGet bag k) := by
    apply List.map_congr_left
    intro k hkmem
    have hk' : k ∈ bagKeys bag' := (List.mem_dedup.1 (List.mem_of_mem_filter hkmem))
    have hk : k ∈ bagKeys bag := hkeys.mem_iff.2 hk'
    rw [bagGet_eq_of_perm h hnd hk]
  have hpairs :
      ((((bagKeys bag).dedup).filter (fun k => k ≠ "hash")).map
        (fun k => k ++ "=" ++ bagGet bag k)).Perm
      ((((bagKeys bag').dedup).filter (fun k => k ≠ "hash")).map
        (fun k => k ++ "=" ++ bagGet bag' k)) := by
    rw [hmapeq]
    exact hfil.map _
  have hsort :
      (List.insertionSort strLe
        ((((bagKeys bag').dedup).filter (fun k => k ≠ "hash")).map
          (fun k => k ++ "=" ++ bagGet bag' k)))
      = (List.insertionSort strLe
        ((((bagKeys bag).dedup).filter (fun k => k ≠ "hash")).map
          (fun k => k ++ "=" ++ bagGet bag k))) := by
    refine List.eq_of_perm_of_sorted (r := strLe) ?_ ?_ ?_
    · exact (List.perm_insertionSort _ _).trans
        (hpairs.symm.trans (List.perm_insertionSort _ _).symm)
    · exact List.sorted_insertionSort _ _
    · exact List.sorted_insertionSort _ _
  simp only [dataCheckString]
  rw [hsort]

theorem verifyInitData_roundtrip (macHex : String → String → String)
    (unmarshalUser : String → Option TgUser) (S : String) (bag : Bag)
    (maxAge now d : Int) (ad us : String) (u : TgUser)
    (hnd : (bagKeys bag).Nodup)
    (hh : ("hash", macHex S (dataCheckString bag)) ∈ bag)
    (hhne : macHex S (dataCheckString bag) ≠ "")
    (had : ("auth_date", ad) ∈ bag) (hadp : goParseInt64 ad = some d)
    (hus : ("user", us) ∈ bag) (husne : us ≠ "")
    (hu : unmarshalUser us = some u) (huid : u.id ≠ 0)
    (hfresh : 0 < maxAge → now - d ≤ maxAge) :
    ∀ bag', bag.Perm bag' →
      VerifyInitData macHex unmarshalUser bag' S maxAge now
        = .ok { user := u, authDate := d } := by
  intro bag' hp
  have hnd' : (bagKeys bag').Nodup := ((hp.map Prod.fst).nodup_iff).1 hnd
  have hdcs : dataCheckString bag' = dataCheckString bag :=
    dataCheckString_eq_of_perm hp hnd
  have hgh : bagGet bag' "hash" = macHex S (dataCheckString bag) :=
    bagGet_eq_of_mem (hp.subset hh) hnd'
  have hga : bagGet bag' "auth_date" = ad :=
    bagGet_eq_of_mem (hp.subset had) hnd'
  have hgu : bagGet bag' "user" = us :=
    bagGet_eq_of_mem (hp.subset hus) hnd'
  have hadne : ad ≠ "" := by
    intro h0
    rw [h0] at hadp
    simp [goParseInt64] at hadp
  have hexp : ¬(0 < maxAge ∧ maxAge < now - d) := by
    rintro ⟨h1, h2⟩
    exact absurd h2 (not_lt.2 (hfresh h1))
  simp [VerifyInitData, hgh, hga, hgu, hdcs, hhne, hadp, hadne, husne, hu, huid, hexp]

theorem verifyInitData_roundtrip_witness :
    (bagKeys bagW).Nodup
    ∧ ("hash", macW "S" (dataCheckString bagW)) ∈ bagW
    ∧ VerifyInitData macW unmarshalW bagW "S" 0 1000
        = .ok { user := userW, authDate := 100 } :=
  ⟨by decide, by decide,
   verifyInitData_roundtrip macW unmarshalW "S" bagW 0 1000 100 "100" "u1" userW
     (by decide) (by decide) (by decide) (by decide) (by decide) (by decide)
     (by decide) (by decide) (by decide) (by decide)
     bagW (List.Perm.refl bagW)⟩

theorem verifyInitData_expiry (macHex : String → String → String)
    (unmarshalUser : String → Option TgUser) (S : String) (bag : Bag)
    (maxAge now d : Int) :
    ((bagGet bag "hash" ≠ "") →
     goToLower (bagGet bag "hash") = goToLower (macHex S (dataCheckString bag)) →
     goParseInt64 (bagGet bag "auth_date") = some d →
     0 < maxAge → maxAge < now - d →
     VerifyInitData macHex unmarshalUser bag S maxAge now = .error .expired)
    ∧ ∀ (bag' : Bag) (now' : Int),
        VerifyInitData macHex unmarshalUser bag' S 0 now' ≠ .error .expired := by
  constructor
  · intro hne hsig hparse h1 h2
    have hadne : bagGet bag "auth_date" ≠ "" := by
      intro h0
      rw [h0] at hparse
      simp [goParseInt64] at hparse
    simp [VerifyInitData, hne, hsig, hparse, hadne, h1, h2]
  · intro bag' now' hcon
    simp only [VerifyInitData] at hcon
    repeat' split at hcon
    all_goals simp_all

theorem verifyInitData_expiry_witness :
    VerifyInitData macW unmarshalW bagExpW "S" 5 100 = .error .expired
    ∧ VerifyInitData macW unmarshalW bagExpW "S" 0 100 ≠ .error .expired :=
  ⟨(verifyInitData_expiry macW unmarshalW "S" bagExpW 5 100 10).1
     (by decide) (by decide) (by decide) (by decide) (by decide),
   (verifyInitData_expiry macW unmarshalW "S" bagExpW 5 100 10).2 bagExpW 100⟩

theorem wrap_uniform (macHex : String → String → String)
    (unmarshalUser : String → Option TgUser) (token : String) (maxAge now : Int)
    (bag1 bag2 : Bag) (e1 e2 : VerifyError)
    (h1 : VerifyInitData macHex unmarshalUser bag1 token maxAge now = .error e1)
    (h2 : VerifyInitData macHex unmarshalUser bag2 token maxAge now = .error e2) :
    Wrap macHex unmarshalUser (some bag1) token maxAge now
        = .reject 401 "invalid telegram init data"
    ∧ Wrap macHex unmarshalUser (some bag2) token maxAge now
        = Wrap macHex unmarshalUser (some bag1) token maxAge now := by
  simp [Wrap, h1, h2]

theorem wrap_uniform_witness :
    VerifyInitData macW unmarshalW [] "S" 0 0 = .error .missingHash
    ∧ VerifyInitData macW unmarshalW bagSigW "S" 0 0 = .error .signatureMismatch
    ∧ Wrap macW unmarshalW (some []) "S" 0 0 = .reject 401 "invalid telegram init data"
    ∧ Wrap macW unmarshalW (some bagSigW) "S" 0 0 = Wrap macW unmarshalW (some []) "S" 0 0 := by
  refine ⟨rfl, rfl, ?_, ?_⟩
  · exact (wrap_uniform macW unmarshalW "S" 0 0 [] bagSigW .missingHash .signatureMismatch
      rfl rfl).1
  · exact (wrap_uniform macW unmarshalW "S" 0 0 [] bagSigW .missingHash .signatureMismatch
      rfl rfl).2

end SaleorTMA
